import Mathlib

/-!
# Verification of the todo-whiteboard persistence and state contract

Shallow embedding of the two source files of the repository:

* the store endpoint (`src/unnamed/part_000`, a Next.js route module):
  the Task shape check (`isTask`), file read/write (`readTasksFile`,
  `writeTasksFile`) and the two handlers (`GET`, `PUT`);
* the board client (`src/components/todo-board.tsx`): the pure list
  transformations behind the UI actions (`addTask`, `updateTask`,
  `moveForward`, `moveBack`, `removeTask`).

JSON values are modelled by the inductive `Json`; the backing file by
`FileState` (missing/unreadable, unparseable, or holding a parsed JSON
document).  `JSON.stringify` followed by `JSON.parse` is the identity on
such values (numbers are modelled as integers), so `writeTasksFile` maps a
task list to the file state whose document is that array.
-/

namespace TodoWhiteboard

/-- A parsed JSON value, as produced by `JSON.parse`.  Numbers are modelled
as integers (the application only ever round-trips strings).  An object is a
list of key/value bindings; a document produced by `JSON.parse` binds each
key at most once, so a first-match lookup is faithful. -/
inductive Json where
  | null : Json
  | bool (b : Bool) : Json
  | num (n : Int) : Json
  | str (s : String) : Json
  | arr (items : List Json) : Json
  | obj (fields : List (String × Json)) : Json
  deriving Repr

/-- JavaScript property access `value[key]` on a parsed JSON value:
`some` the bound value for an object that binds the key, `none`
(i.e. `undefined`) otherwise.  Array elements are indexed numerically, so a
string key misses on arrays. -/
def Json.getField : Json → String → Option Json
  | .obj fields, key => fields.lookup key
  | _, _ => none

/-- The test `value && typeof value === "object"`: of the values
`JSON.parse` can produce, exactly objects and arrays pass (null is falsy;
booleans, numbers and strings have a different typeof). -/
def Json.isTruthyObject : Json → Bool
  | .obj _ => true
  | .arr _ => true
  | _ => false

/-- `typeof v === "string"` on a possibly-undefined property value. -/
def isStringField : Option Json → Bool
  | some (.str _) => true
  | _ => false

/-- `isTaskStatus` from the route module, applied to a possibly-undefined
property value: `value === "todo" || value === "doing" || value === "done"`. -/
def isTaskStatus : Option Json → Bool
  | some (.str s) => s == "todo" || s == "doing" || s == "done"
  | _ => false

/-- `isTask` from the route module: the value is a truthy object whose
`id`, `title` and `detail` properties are strings and whose `status`
property is one of the three enumerated values. -/
def isTask (value : Json) : Bool :=
  if value.isTruthyObject then
    isStringField (value.getField "id") &&
    isStringField (value.getField "title") &&
    isStringField (value.getField "detail") &&
    isTaskStatus (value.getField "status")
  else
    false

/-- The state of the backing file `data/tasks.json`. -/
inductive FileState where
  /-- the file is absent or unreadable: `fs.readFile` rejects -/
  | missing : FileState
  /-- the file holds text that `JSON.parse` rejects -/
  | invalidJson : FileState
  /-- the file holds text parsing to `doc` -/
  | content (doc : Json) : FileState
  deriving Repr

/-- `readTasksFile` from the route module: read the file, parse it, and
throw unless the document is an array each of whose elements passes
`isTask`.  `Except.error` models a thrown exception. -/
def readTasksFile (fs : FileState) : Except String (List Json) :=
  match fs with
  | .missing => .error "read failed"
  | .invalidJson => .error "parse failed"
  | .content doc =>
    match doc with
    | .arr items =>
      if items.any (fun item => !(isTask item)) then .error "Invalid tasks data"
      else .ok items
    | _ => .error "Invalid tasks data"

/-- `writeTasksFile` from the route module: serialise the task array and
overwrite the file with it.  Stringify-then-parse is the identity on `Json`
values, so the resulting file state holds exactly that array. -/
def writeTasksFile (tasks : List Json) : FileState :=
  .content (.arr tasks)

/-- An HTTP response as built by `NextResponse.json`: a status code
(200 when none is given) and a JSON body. -/
structure ApiResponse where
  status : Nat
  body : Json
  deriving Repr

/-- The `GET` handler: return the task list read from the file, or the
empty list when `readTasksFile` throws; either way `NextResponse.json`
responds with status 200. -/
def GET (fs : FileState) : ApiResponse :=
  match readTasksFile fs with
  | .ok tasks => { status := 200, body := .obj [("tasks", .arr tasks)] }
  | .error _ => { status := 200, body := .obj [("tasks", .arr [])] }

/-- The `PUT` handler, as a function of
* `parsedBody`: what `request.json()` yields — `none` when the request body
  is not parseable JSON, in which case the promise rejects and control jumps
  to the handler's catch block;
* `writeOk`: whether the disk write succeeds;
* `failState`: the (unspecified) state the file is left in when the write
  fails partway — the code makes no guarantee about it;
* `fs`: the file state before the request.
Returns the response and the file state after the request. -/
def PUT (parsedBody : Option Json) (writeOk : Bool) (failState : FileState)
    (fs : FileState) : ApiResponse × FileState :=
  match parsedBody with
  | none =>
    ({ status := 500, body := .obj [("message", .str "Failed to save tasks")] }, fs)
  | some body =>
    if !body.isTruthyObject then
      ({ status := 400, body := .obj [("message", .str "Invalid body")] }, fs)
    else
      match body.getField "tasks" with
      | some (.arr tasks) =>
        if tasks.any (fun item => !(isTask item)) then
          ({ status := 400, body := .obj [("message", .str "Invalid tasks")] }, fs)
        else if writeOk then
          ({ status := 200, body := .obj [("tasks", .arr tasks)] }, writeTasksFile tasks)
        else
          ({ status := 500, body := .obj [("message", .str "Failed to save tasks")] },
            failState)
      | _ =>
        ({ status := 400, body := .obj [("message", .str "Invalid tasks")] }, fs)

/-! ## The board client (`src/components/todo-board.tsx`)

The client works on typed tasks (the `Task` type of the component).  Each
UI action computes the next list from the current one and hands it to
`persistTasks`; the functions below are those list computations.  React
state that a claim mentions (the active detail-view task and whether the
dialog is open) is passed and returned explicitly. -/

/-- The `TaskStatus` union type: `"todo" | "doing" | "done"`. -/
inductive TaskStatus where
  | todo : TaskStatus
  | doing : TaskStatus
  | done : TaskStatus
  deriving Repr, DecidableEq

/-- The client-side `Task` type. -/
structure Task where
  id : String
  title : String
  detail : String
  status : TaskStatus
  deriving Repr, DecidableEq

/-- JavaScript `String.prototype.trim`: drop whitespace from both ends
(the characters the application can meet are the ASCII whitespace ones,
which `Char.isWhitespace` covers). -/
def jsTrim (s : String) : String :=
  ⟨((s.data.dropWhile Char.isWhitespace).reverse.dropWhile
      Char.isWhitespace).reverse⟩

/-- `addTask`: trim the two input fields; if the trimmed title is empty,
return without touching the list or calling `persistTasks` (modelled by
`none`); otherwise prepend a new task with a fresh identifier (the
`crypto.randomUUID()` result is the parameter `freshId`) and status `todo`,
and hand the new list to `persistTasks` (modelled by `some`). -/
def addTask (newTitle newDetail freshId : String) (tasks : List Task) :
    Option (List Task) :=
  let title := jsTrim newTitle
  let detail := jsTrim newDetail
  if title = "" then
    none
  else
    some ({ id := freshId, title := title, detail := detail,
            status := TaskStatus.todo } :: tasks)

/-- A `Partial<Pick<Task, "title" | "detail">>` patch: each field is
present (`some`) or absent (`none`). -/
structure TaskPatch where
  title? : Option String := none
  detail? : Option String := none
  deriving Repr, DecidableEq

/-- The spread `{ ...task, ...patch }`: a field present in the patch
overrides the task's, an absent one leaves it. -/
def Task.applyPatch (task : Task) (patch : TaskPatch) : Task :=
  { task with
    title := patch.title?.getD task.title
    detail := patch.detail?.getD task.detail }

/-- `updateTask`: map over the list, replacing the task whose `id` matches
by `{ ...task, ...patch }` and keeping every other task. -/
def updateTask (tasks : List Task) (id : String) (patch : TaskPatch) :
    List Task :=
  tasks.map fun task => if task.id = id then task.applyPatch patch else task

/-- `moveForward`: map over the list; the task whose `id` matches steps
`todo → doing`, `doing → done`, and is returned unchanged when already
`done`; every other task is returned unchanged. -/
def moveForward (tasks : List Task) (id : String) : List Task :=
  tasks.map fun task =>
    if task.id ≠ id then task
    else if task.status = TaskStatus.todo then { task with status := TaskStatus.doing }
    else if task.status = TaskStatus.doing then { task with status := TaskStatus.done }
    else task

/-- `moveBack`: map over the list; the task whose `id` matches steps
`done → doing`, `doing → todo`, and is returned unchanged when already
`todo`; every other task is returned unchanged. -/
def moveBack (tasks : List Task) (id : String) : List Task :=
  tasks.map fun task =>
    if task.id ≠ id then task
    else if task.status = TaskStatus.done then { task with status := TaskStatus.doing }
    else if task.status = TaskStatus.doing then { task with status := TaskStatus.todo }
    else task

/-- The detail-view dialog state: `activeTask` and `dialogOpen`. -/
structure BoardDialog where
  activeTask : Option Task
  dialogOpen : Bool
  deriving Repr, DecidableEq

/-- `removeTask`: filter out every task whose `id` matches; when the
removed id is the active detail-view task's (`activeTask?.id === id`),
close the dialog and clear the active task, otherwise leave the dialog
state alone.  Returns the next list and the next dialog state. -/
def removeTask (tasks : List Task) (dialog : BoardDialog) (id : String) :
    List Task × BoardDialog :=
  let nextTasks := tasks.filter fun task => task.id ≠ id
  if dialog.activeTask.any (fun t => t.id == id) then
    (nextTasks, { activeTask := none, dialogOpen := false })
  else
    (nextTasks, dialog)

/-! ## Specification-side step functions (for stating the claims) -/

/-- One forward step of the status state machine, as the spec describes it. -/
def stepForward : TaskStatus → TaskStatus
  | .todo => .doing
  | .doing => .done
  | .done => .done

/-- One backward step of the status state machine, as the spec describes it. -/
def stepBack : TaskStatus → TaskStatus
  | .done => .doing
  | .doing => .todo
  | .todo => .todo

/-- The condition under which `PUT` accepts a parsed request body: the body
is a truthy object whose `tasks` property is an array all of whose elements
pass `isTask`; the accepted array when it does. -/
def extractTasks (body : Json) : Option (List Json) :=
  if !body.isTruthyObject then none
  else
    match body.getField "tasks" with
    | some (.arr tasks) => if tasks.all isTask then some tasks else none
    | _ => none

/-! ## Helper lemmas -/

/-- A list of shape-valid tasks has no element failing `isTask`. -/
theorem any_not_isTask_eq_false (tasks : List Json)
    (h : ∀ t ∈ tasks, isTask t = true) :
    tasks.any (fun item => !(isTask item)) = false := by
  rw [List.any_eq_false]
  intro x hx
  simp [h x hx]

/-- `any not` is the negation of `all`. -/
theorem any_not_isTask_eq_not_all (tasks : List Json) :
    tasks.any (fun item => !(isTask item)) = !(tasks.all isTask) := by
  induction tasks with
  | nil => rfl
  | cons a l ih => simp [List.any_cons, List.all_cons, ih, Bool.not_and]

/-- `Forall₂` between a list and its image under a map. -/
theorem forall₂_map_self {α : Type} (f : α → α) (P : α → α → Prop)
    (l : List α) (h : ∀ x ∈ l, P x (f x)) : List.Forall₂ P l (l.map f) := by
  induction l with
  | nil => simp
  | cons a l ih =>
    exact List.Forall₂.cons (h a (by simp))
      (ih fun x hx => h x (List.mem_cons_of_mem a hx))

/-- A map that fixes every element of the list is the identity on it. -/
theorem map_eq_self_of_fixes {α : Type} (l : List α) (f : α → α)
    (h : ∀ x ∈ l, f x = x) : l.map f = l := by
  induction l with
  | nil => rfl
  | cons a l ih =>
    simp only [List.map_cons, h a (List.mem_cons_self a l),
      ih fun x hx => h x (List.mem_cons_of_mem a hx)]

/-- The example task of the spec:
`{id:"1",title:"A",detail:"",status:"todo"}`. -/
def exampleTask : Json :=
  .obj [("id", .str "1"), ("title", .str "A"), ("detail", .str ""),
        ("status", .str "todo")]

/-! ## Claims -/

/-- C1: for every list of shape-valid tasks, a successful `PUT` of that
list followed by a `GET` yields an identical list — same elements, same
field values, same order; in particular `writeTasksFile` followed by
`readTasksFile` is the identity on shape-valid task lists. -/
theorem put_get_roundTrip (tasks : List Json)
    (h : ∀ t ∈ tasks, isTask t = true) (failState fs : FileState) :
    readTasksFile (writeTasksFile tasks) = Except.ok tasks ∧
    PUT (some (.obj [("tasks", .arr tasks)])) true failState fs =
      ({ status := 200, body := .obj [("tasks", .arr tasks)] },
        FileState.content (.arr tasks)) ∧
    GET (PUT (some (.obj [("tasks", .arr tasks)])) true failState fs).2 =
      { status := 200, body := .obj [("tasks", .arr tasks)] } := by
  have hall := any_not_isTask_eq_false tasks h
  refine ⟨?_, ?_, ?_⟩ <;>
    simp [readTasksFile, writeTasksFile, PUT, GET, Json.getField,
      Json.isTruthyObject, List.lookup, hall]

/-- C1 witness: the spec's own example round-trips. -/
theorem put_get_roundTrip_witness :
    readTasksFile (writeTasksFile [exampleTask]) = Except.ok [exampleTask] ∧
    PUT (some (.obj [("tasks", .arr [exampleTask])])) true
        FileState.missing FileState.missing =
      ({ status := 200, body := .obj [("tasks", .arr [exampleTask])] },
        FileState.content (.arr [exampleTask])) ∧
    GET (PUT (some (.obj [("tasks", .arr [exampleTask])])) true
        FileState.missing FileState.missing).2 =
      { status := 200, body := .obj [("tasks", .arr [exampleTask])] } :=
  put_get_roundTrip [exampleTask] (by decide) FileState.missing FileState.missing

/-- C2 counterexample: a request body that is not parseable JSON makes
`request.json()` throw, so the handler's catch block answers 500, not the
400 the claim promises for every malformed request body — even though the
disk write never fails. -/
theorem put_unparseable_body_is_500 :
    (PUT none true FileState.missing FileState.missing).1.status = 500 ∧
    ¬(PUT none true FileState.missing FileState.missing).1.status = 400 := by
  decide

/-- A parsed body that `extractTasks` rejects is answered 400 with a
message and the file is untouched. -/
theorem put_rejected (body : Json) (writeOk : Bool) (failState fs : FileState)
    (h : extractTasks body = none) :
    ∃ m, PUT (some body) writeOk failState fs =
      ({ status := 400, body := .obj [("message", .str m)] }, fs) := by
  by_cases hobj : body.isTruthyObject
  · simp only [extractTasks, hobj, Bool.not_true, Bool.false_eq_true,
      if_false] at h
    cases hgf : body.getField "tasks" with
    | none => exact ⟨"Invalid tasks", by simp [PUT, hobj, hgf]⟩
    | some v =>
      cases v with
      | arr tasks =>
        rw [hgf] at h
        have hbad : tasks.all isTask = false := by
          by_contra hc
          rw [Bool.eq_false_iff] at hc
          push_neg at hc
          simp [hc] at h
        have hany : tasks.any (fun item => !(isTask item)) = true := by
          rw [any_not_isTask_eq_not_all, hbad]; rfl
        exact ⟨"Invalid tasks", by simp [PUT, hobj, hgf, hany]⟩
      | null => exact ⟨"Invalid tasks", by simp [PUT, hobj, hgf]⟩
      | bool b => exact ⟨"Invalid tasks", by simp [PUT, hobj, hgf]⟩
      | num n => exact ⟨"Invalid tasks", by simp [PUT, hobj, hgf]⟩
      | str s => exact ⟨"Invalid tasks", by simp [PUT, hobj, hgf]⟩
      | obj fields => exact ⟨"Invalid tasks", by simp [PUT, hobj, hgf]⟩
  · exact ⟨"Invalid body", by simp [PUT, hobj]⟩

/-- A parsed body that `extractTasks` accepts is written when the write
succeeds (echoing the accepted array) and answered 500 when it fails. -/
theorem put_accepted (body : Json) (tasks : List Json) (writeOk : Bool)
    (failState fs : FileState) (h : extractTasks body = some tasks) :
    PUT (some body) writeOk failState fs =
      if writeOk then
        ({ status := 200, body := .obj [("tasks", .arr tasks)] },
          FileState.content (.arr tasks))
      else
        ({ status := 500, body := .obj [("message", .str "Failed to save tasks")] },
          failState) := by
  by_cases hobj : body.isTruthyObject
  · simp only [extractTasks, hobj, Bool.not_true, Bool.false_eq_true,
      if_false] at h
    cases hgf : body.getField "tasks" with
    | none => rw [hgf] at h; simp at h
    | some v =>
      cases v with
      | arr tasks₀ =>
        rw [hgf] at h
        simp only [] at h
        by_cases hall : tasks₀.all isTask = true
        · rw [if_pos hall] at h
          have htasks : tasks₀ = tasks := by
            exact Option.some.inj h
          subst htasks
          have hany : tasks₀.any (fun item => !(isTask item)) = false := by
            rw [any_not_isTask_eq_not_all, hall]; rfl
          cases writeOk with
          | true => simp [PUT, hobj, hgf, hany, writeTasksFile]
          | false => simp [PUT, hobj, hgf, hany]
        · rw [if_neg hall] at h
          simp at h
      | null => rw [hgf] at h; simp at h
      | bool b => rw [hgf] at h; simp at h
      | num n => rw [hgf] at h; simp at h
      | str s => rw [hgf] at h; simp at h
      | obj fields => rw [hgf] at h; simp at h
  · simp [extractTasks, hobj] at h

/-- C2 (amended): `PUT` returns exactly one of three results — 200 echoing
the accepted tasks when the body parses to a truthy object whose `tasks`
field is a shape-valid array and the write succeeds; 400 with a message,
with the persisted document untouched, when the body parses as JSON but
fails validation; 500 with a message when the body is not parseable JSON
(persisted document untouched) or when the disk write fails. -/
theorem put_response_trichotomy (parsedBody : Option Json) (writeOk : Bool)
    (failState fs : FileState) :
    ((PUT parsedBody writeOk failState fs).1.status = 200 ∨
      (PUT parsedBody writeOk failState fs).1.status = 400 ∨
      (PUT parsedBody writeOk failState fs).1.status = 500) ∧
    (parsedBody = none →
      (PUT parsedBody writeOk failState fs).1.status = 500 ∧
      (PUT parsedBody writeOk failState fs).1.body =
        .obj [("message", .str "Failed to save tasks")] ∧
      (PUT parsedBody writeOk failState fs).2 = fs) ∧
    (∀ body, parsedBody = some body → extractTasks body = none →
      (PUT parsedBody writeOk failState fs).1.status = 400 ∧
      (∃ m, (PUT parsedBody writeOk failState fs).1.body =
        .obj [("message", .str m)]) ∧
      (PUT parsedBody writeOk failState fs).2 = fs) ∧
    (∀ body tasks, parsedBody = some body → extractTasks body = some tasks →
      writeOk = true →
      (PUT parsedBody writeOk failState fs).1 =
        { status := 200, body := .obj [("tasks", .arr tasks)] } ∧
      (PUT parsedBody writeOk failState fs).2 = FileState.content (.arr tasks)) ∧
    (∀ body tasks, parsedBody = some body → extractTasks body = some tasks →
      writeOk = false →
      (PUT parsedBody writeOk failState fs).1.status = 500 ∧
      (PUT parsedBody writeOk failState fs).1.body =
        .obj [("message", .str "Failed to save tasks")] ∧
      (PUT parsedBody writeOk failState fs).2 = failState) := by
  refine ⟨?_, ?_, ?_, ?_, ?_⟩
  · cases parsedBody with
    | none => right; right; simp [PUT]
    | some body =>
      cases hex : extractTasks body with
      | none =>
        obtain ⟨m, hm⟩ := put_rejected body writeOk failState fs hex
        right; left; rw [hm]
      | some tasks =>
        have hput := put_accepted body tasks writeOk failState fs hex
        cases writeOk with
        | true => left; simp at hput; rw [hput]
        | false => right; right; simp at hput; rw [hput]
  · intro h; subst h; exact ⟨rfl, rfl, rfl⟩
  · intro body hb hex
    subst hb
    obtain ⟨m, hm⟩ := put_rejected body writeOk failState fs hex
    rw [hm]
    exact ⟨rfl, ⟨m, rfl⟩, rfl⟩
  · intro body tasks hb hex hw
    subst hb; subst hw
    have hput := put_accepted body tasks true failState fs hex
    simp at hput
    rw [hput]
    exact ⟨rfl, rfl⟩
  · intro body tasks hb hex hw
    subst hb; subst hw
    have hput := put_accepted body tasks false failState fs hex
    simp at hput
    rw [hput]
    exact ⟨rfl, rfl, rfl⟩

/-- C3: `GET` never returns an error status: whatever the state of the
backing file — missing or unreadable, unparseable, not an array, or
containing an element failing the Task shape check — it answers 200 with
the empty task list; when the file holds a shape-valid task array it
answers 200 with exactly that array. -/
theorem get_always_200 (fs : FileState) :
    (GET fs).status = 200 ∧
    (∀ tasks, readTasksFile fs = Except.ok tasks →
      (GET fs).body = .obj [("tasks", .arr tasks)]) ∧
    (∀ e, readTasksFile fs = Except.error e →
      (GET fs).body = .obj [("tasks", .arr [])]) ∧
    (∀ tasks, fs = FileState.content (.arr tasks) →
      (∀ t ∈ tasks, isTask t = true) →
      GET fs = { status := 200, body := .obj [("tasks", .arr tasks)] }) ∧
    (fs = FileState.missing →
      GET fs = { status := 200, body := .obj [("tasks", .arr [])] }) ∧
    (fs = FileState.invalidJson →
      GET fs = { status := 200, body := .obj [("tasks", .arr [])] }) ∧
    (∀ doc, fs = FileState.content doc → (∀ items, doc ≠ .arr items) →
      GET fs = { status := 200, body := .obj [("tasks", .arr [])] }) ∧
    (∀ items t, fs = FileState.content (.arr items) → t ∈ items →
      isTask t = false →
      GET fs = { status := 200, body := .obj [("tasks", .arr [])] }) := by
  refine ⟨?_, ?_, ?_, ?_, ?_, ?_, ?_, ?_⟩
  · unfold GET; cases h : readTasksFile fs <;> simp
  · intro tasks h; unfold GET; rw [h]
  · intro e h; unfold GET; rw [h]
  · intro tasks hfs h
    subst hfs
    have hall := any_not_isTask_eq_false tasks h
    unfold GET
    simp [readTasksFile, hall]
  · intro h; subst h; rfl
  · intro h; subst h; rfl
  · intro doc hfs hnot
    subst hfs
    unfold GET
    cases doc with
    | arr items => exact absurd rfl (hnot items)
    | null => rfl
    | bool b => rfl
    | num n => rfl
    | str s => rfl
    | obj fields => rfl
  · intro items t hfs ht hbad
    subst hfs
    have hany : items.any (fun item => !(isTask item)) = true := by
      rw [List.any_eq_true]
      exact ⟨t, ht, by simp [hbad]⟩
    unfold GET
    simp [readTasksFile, hany]

/-- C4: the status state machine is strictly linear and one-step.
`moveForward` changes only the task with the given id, stepping
`todo → doing` and `doing → done` and leaving a `done` task unchanged;
`moveBack` symmetrically steps `done → doing` and `doing → todo` and
leaves a `todo` task unchanged; neither operation takes any task from
`todo` directly to `done` or from `done` directly to `todo`. -/
theorem move_one_step (tasks : List Task) (id : String) :
    List.Forall₂ (fun t u =>
      u.id = t.id ∧ u.title = t.title ∧ u.detail = t.detail ∧
      (t.id ≠ id → u = t) ∧
      (t.id = id → u.status = stepForward t.status) ∧
      (t.status = TaskStatus.done → u = t) ∧
      ¬(t.status = TaskStatus.todo ∧ u.status = TaskStatus.done) ∧
      ¬(t.status = TaskStatus.done ∧ u.status = TaskStatus.todo))
      tasks (moveForward tasks id) ∧
    List.Forall₂ (fun t u =>
      u.id = t.id ∧ u.title = t.title ∧ u.detail = t.detail ∧
      (t.id ≠ id → u = t) ∧
      (t.id = id → u.status = stepBack t.status) ∧
      (t.status = TaskStatus.todo → u = t) ∧
      ¬(t.status = TaskStatus.todo ∧ u.status = TaskStatus.done) ∧
      ¬(t.status = TaskStatus.done ∧ u.status = TaskStatus.todo))
      tasks (moveBack tasks id) := by
  constructor <;>
  · apply forall₂_map_self
    intro t ht
    by_cases hid : t.id = id <;>
      cases hstatus : t.status <;>
        simp [hid, hstatus, stepForward, stepBack]

/-- C5: `addTask` with a non-blank title prepends exactly one new task —
bearing the fresh identifier and status `todo` — to the front of the list;
every pre-existing task is unchanged and keeps its relative order. -/
theorem addTask_prepends (newTitle newDetail freshId : String)
    (tasks : List Task) (h : jsTrim newTitle ≠ "") :
    addTask newTitle newDetail freshId tasks =
      some ({ id := freshId, title := jsTrim newTitle,
              detail := jsTrim newDetail, status := TaskStatus.todo } :: tasks) := by
  simp [addTask, h]

/-- C5 witness: adding a concrete task to a one-element list. -/
theorem addTask_prepends_witness :
    addTask " A " " d " "uuid-2"
        [{ id := "uuid-1", title := "B", detail := "", status := TaskStatus.doing }] =
      some [{ id := "uuid-2", title := "A", detail := "d",
              status := TaskStatus.todo },
            { id := "uuid-1", title := "B", detail := "",
              status := TaskStatus.doing }] := by
  rw [addTask_prepends " A " " d " "uuid-2" _ (by decide)]
  rfl

/-- C6: `updateTask` with a title/detail patch rewrites only the task with
the given id, and only its patched fields: that task's id and status are
unchanged, its title and detail become the patch's values where present,
every other task is returned unchanged, and no status restricts the edit. -/
theorem updateTask_frame (tasks : List Task) (id : String)
    (patch : TaskPatch) :
    List.Forall₂ (fun t u =>
      (t.id ≠ id → u = t) ∧
      (t.id = id →
        u.id = t.id ∧ u.status = t.status ∧
        u.title = patch.title?.getD t.title ∧
        u.detail = patch.detail?.getD t.detail))
      tasks (updateTask tasks id patch) := by
  apply forall₂_map_self
  intro t ht
  by_cases hid : t.id = id <;> simp [hid, Task.applyPatch]

/-- C7: `removeTask` drops every task with the given id and keeps the
remaining tasks in order; when the removed id is the active detail-view
task's, the dialog is closed and the active task cleared, otherwise the
dialog state is returned unchanged. -/
theorem removeTask_filters_and_closes (tasks : List Task)
    (dialog : BoardDialog) (id : String) :
    ((removeTask tasks dialog id).1).Sublist tasks ∧
    (∀ t ∈ (removeTask tasks dialog id).1, t.id ≠ id) ∧
    (∀ t ∈ tasks, t.id ≠ id → t ∈ (removeTask tasks dialog id).1) ∧
    (∀ t, dialog.activeTask = some t → t.id = id →
      (removeTask tasks dialog id).2 =
        { activeTask := none, dialogOpen := false }) ∧
    ((∀ t, dialog.activeTask = some t → t.id ≠ id) →
      (removeTask tasks dialog id).2 = dialog) := by
  have hfst : (removeTask tasks dialog id).1 =
      tasks.filter (fun task => task.id ≠ id) := by
    unfold removeTask
    split <;> rfl
  refine ⟨?_, ?_, ?_, ?_, ?_⟩
  · rw [hfst]; exact List.filter_sublist tasks
  · rw [hfst]; intro t htmem
    rw [List.mem_filter] at htmem
    exact of_decide_eq_true htmem.2
  · rw [hfst]; intro t htmem hne
    rw [List.mem_filter]
    exact ⟨htmem, decide_eq_true hne⟩
  · intro t hat hid
    unfold removeTask
    rw [if_pos]
    rw [hat]
    simp [hid, Option.any]
  · intro hnone
    unfold removeTask
    rw [if_neg]
    intro hc
    cases hat : dialog.activeTask with
    | none => rw [hat] at hc; simp [Option.any] at hc
    | some t =>
      rw [hat] at hc
      simp [Option.any] at hc
      exact hnone t hat hc

/-- C8: trimming governs `addTask` — a title that is empty or
whitespace-only after trimming makes it a no-op (the list is unchanged and
`persistTasks` is never called, modelled by `none`); otherwise the stored
title and detail are the whitespace-trimmed input fields. -/
theorem addTask_blank_noop (newTitle newDetail freshId : String)
    (tasks : List Task) :
    (jsTrim newTitle = "" →
      addTask newTitle newDetail freshId tasks = none) ∧
    (jsTrim newTitle ≠ "" →
      addTask newTitle newDetail freshId tasks =
        some ({ id := freshId, title := jsTrim newTitle,
                detail := jsTrim newDetail, status := TaskStatus.todo } :: tasks)) := by
  constructor <;> intro h <;> simp [addTask, h]

/-- C9: on an id absent from the list, `updateTask`, `moveForward` and
`moveBack` all return the input list unchanged, element for element. -/
theorem mutations_fix_unknown_id (tasks : List Task) (id : String)
    (patch : TaskPatch) (h : ∀ t ∈ tasks, t.id ≠ id) :
    updateTask tasks id patch = tasks ∧
    moveForward tasks id = tasks ∧
    moveBack tasks id = tasks := by
  refine ⟨?_, ?_, ?_⟩ <;>
  · apply map_eq_self_of_fixes
    intro t ht
    simp [h t ht]

/-- C9 witness: the three mutations at an id no task carries. -/
theorem mutations_fix_unknown_id_witness :
    updateTask [{ id := "uuid-1", title := "A", detail := "",
                  status := TaskStatus.doing }] "zzz"
        { title? := some "B", detail? := none } =
      [{ id := "uuid-1", title := "A", detail := "",
         status := TaskStatus.doing }] ∧
    moveForward [{ id := "uuid-1", title := "A", detail := "",
                   status := TaskStatus.doing }] "zzz" =
      [{ id := "uuid-1", title := "A", detail := "",
         status := TaskStatus.doing }] ∧
    moveBack [{ id := "uuid-1", title := "A", detail := "",
                status := TaskStatus.doing }] "zzz" =
      [{ id := "uuid-1", title := "A", detail := "",
         status := TaskStatus.doing }] :=
  mutations_fix_unknown_id _ "zzz" _ (by decide)

/-- C10: the Task shape check looks only at the four required properties —
an object carrying them correctly passes `isTask` whatever additional
properties it carries — and `PUT` accepts, persists and echoes any
shape-valid tasks verbatim, extra fields included. -/
theorem isTask_ignores_extra_fields (idS titleS detailS statusS : String)
    (extra : List (String × Json))
    (hstatus : statusS = "todo" ∨ statusS = "doing" ∨ statusS = "done")
    (_hextra : ∀ p ∈ extra, p.1 ≠ "id" ∧ p.1 ≠ "title" ∧ p.1 ≠ "detail" ∧
      p.1 ≠ "status") :
    isTask (.obj ([("id", .str idS), ("title", .str titleS),
                   ("detail", .str detailS), ("status", .str statusS)] ++ extra)) =
      true ∧
    (∀ tasks : List Json, (∀ t ∈ tasks, isTask t = true) →
      ∀ failState fs,
        PUT (some (.obj [("tasks", .arr tasks)])) true failState fs =
          ({ status := 200, body := .obj [("tasks", .arr tasks)] },
            FileState.content (.arr tasks))) := by
  constructor
  · rcases hstatus with h | h | h <;> subst h <;>
      simp [isTask, Json.getField, Json.isTruthyObject, List.lookup,
        isStringField, isTaskStatus]
  · intro tasks h failState fs
    have hall := any_not_isTask_eq_false tasks h
    simp [PUT, Json.getField, Json.isTruthyObject, List.lookup, hall,
      writeTasksFile]

/-- C10 witness: a task with an extra `extra` property passes `isTask` and
is accepted, persisted and echoed verbatim by `PUT`. -/
theorem isTask_ignores_extra_fields_witness :
    isTask (.obj [("id", .str "1"), ("title", .str "A"), ("detail", .str ""),
                  ("status", .str "todo"), ("extra", .num 5)]) = true ∧
    PUT (some (.obj [("tasks",
        .arr [.obj [("id", .str "1"), ("title", .str "A"),
                    ("detail", .str ""), ("status", .str "todo"),
                    ("extra", .num 5)]])]))
        true FileState.missing FileState.missing =
      ({ status := 200,
         body := .obj [("tasks",
           .arr [.obj [("id", .str "1"), ("title", .str "A"),
                       ("detail", .str ""), ("status", .str "todo"),
                       ("extra", .num 5)]])] },
        FileState.content (.arr [.obj [("id", .str "1"), ("title", .str "A"),
                                       ("detail", .str ""),
                                       ("status", .str "todo"),
                                       ("extra", .num 5)]])) := by
  have h := isTask_ignores_extra_fields "1" "A" "" "todo"
    [("extra", Json.num 5)] (Or.inl rfl) (by decide)
  exact ⟨h.1, h.2 _ (by decide) FileState.missing FileState.missing⟩

end TodoWhiteboard
